import Mathlib

/-!
Shallow embedding of `logdevice/common/SequencerBackgroundActivator.cpp`:
the background sequencer reconfiguration engine of LogDevice.

The engine state that lives in the `SequencerBackgroundActivator` object
(`queue_`, `budget_`, `retry_timer_`, the worker stats) is modelled as an
explicit state record `DState`.  External collaborators (the sequencer
registry `AllSequencers`, the epoch store, `updateMetaDataIfNeeded`, the
cluster configuration) are modelled as oracle functions packaged in `Env`
and `GEnv`; the engine's code is translated statement by statement against
those oracles.
-/

namespace LogDevice

/-- Error/status codes (`E::...` in the source) that the engine inspects. -/
inductive Status where
  | OK
  | UPTODATE
  | FAILED
  | NOBUFS
  | TOOMANY
  | NOTCONN
  | ACCESS
  | SYSLIMIT
  | INPROGRESS
  | NOSEQUENCER
  | NOTFOUND
  | INTERNAL
  | TOOBIG
  | ABORTED
  | SHUTDOWN
  deriving DecidableEq, Repr

/-- Values of `Sequencer::State` relevant to the engine. -/
inductive SeqState where
  | UNAVAILABLE
  | ACTIVATING
  | ACTIVE
  | PREEMPTED
  | PERMANENT_ERROR
  deriving DecidableEq, Repr

/-- Epoch metadata record, as read through `seq->getCurrentMetaData()`.
`epoch` is `h.epoch` (a 32-bit value, kept as `Nat`; the only increment the
engine performs is guarded by the `EPOCH_MAX - 2` check, so no overflow);
`nodeset_params` and `payload` stand for the remaining fields (nodeset,
replication attributes, selector parameters), which the engine treats
opaquely and only hands to the `updateMetaDataIfNeeded` oracle. -/
structure EpochMetaData where
  epoch : Nat
  writtenInMetaDataLog : Bool
  isEmpty : Bool
  disabled : Bool
  nodeset_params : Nat
  payload : Nat
  deriving DecidableEq, Repr

/-- Result type `EpochMetaData::UpdateResult` as used by this engine (the spec's
reconciler contract: `{UNCHANGED | UPDATED | FAILED}`). -/
inductive UpdateResult where
  | UNCHANGED
  | UPDATED
  | FAILED
  deriving DecidableEq, Repr

/-- Outcome of one call of the `updateMetaDataIfNeeded` oracle: the result
code, the `only_nodeset_params_changed` out-parameter, and the (possibly
rewritten) metadata left in the by-reference argument. -/
structure UpdateOutcome where
  res : UpdateResult
  onlyParams : Bool
  out : EpochMetaData
  deriving DecidableEq, Repr

/-- The slice of a `Sequencer` object the engine reads and writes:
`getState()`, `getCurrentMetaData()`, `getEpochSequencerOptions()` and the
single-slot `background_activation_token_` (modelled by its validity bit).
Options are opaque to the engine (only compared for equality), kept as
`Nat`. -/
structure Sequencer where
  state : SeqState
  metadata : Option EpochMetaData
  options : Option Nat
  tokenValid : Bool
  deriving DecidableEq, Repr

/-- Modelled from the spec: `EPOCH_MAX`, the largest epoch number of the
32-bit epoch space (defined in `types.h`, which is not part of `src/`).
The claims only use the two-slot margin `EPOCH_MAX - 2`, not the value. -/
def EPOCH_MAX : Nat := 2 ^ 32 - 1

/-- Modelled from the spec: the metadata-log subspace of 64-bit log ids
(`MetaDataLog::isMetaDataLog` lives outside `src/`); modelled as the ids
with the metadata bit set, i.e. the upper part of the id space. -/
def isMetaDataLog (logid : Nat) : Bool := decide (2 ^ 62 ≤ logid)

/-- Per-log environment for `reprovisionOrReactivateIfNeeded`: the cluster
configuration and the outcomes of the outbound calls, as oracles.
`updateMD` is `updateMetaDataIfNeeded` (a pure function per the spec);
`activateResult`/`epochStoreResult` give the synchronous result of
`AllSequencers::activateSequencer` resp. `EpochStore::createOrUpdateMetaData`
(`none` = returned 0, `some e` = returned -1 with `err = e`). -/
structure Env where
  provisionEpochStore : Bool
  logInConfig : Bool
  newOptions : Nat
  updateMD : EpochMetaData → UpdateOutcome
  activateResult : Option Status
  epochStoreResult : Option Status

/-- Which outbound action `reprovisionOrReactivateIfNeeded` attempted:
none, `activateSequencer` with the given `acceptable_activation_epoch` and
proposed metadata, or `createOrUpdateMetaData` with the given CAS epoch and
nodeset params. -/
inductive ReprovisionAction where
  | none
  | reactivate (acceptableEpoch : Nat) (metadata : Option EpochMetaData)
  | epochStoreWrite (casEpoch : Nat) (params : Nat)
  deriving DecidableEq, Repr

/-- Result of `reprovisionOrReactivateIfNeeded`: the returned `rv`, the
thread-local `err` it leaves behind (meaningful when `rv = -1`), the action
attempted, and the increments to the two worker action counters
(`sequencer_reactivations_for_metadata_update` and
`metadata_updates_without_sequencer_reactivation`). -/
structure ReprovisionResult where
  rv : Int
  err : Status
  action : ReprovisionAction
  statReact : Nat
  statMeta : Nat
  deriving DecidableEq, Repr

/-- Flags computed by the `do { ... } while (false)` block of
`reprovisionOrReactivateIfNeeded` (source lines 182-314): the
`need_reactivation` / `need_epoch_metadata_update` flags, the tentative
`new_metadata`, and an early `return -1` (`E::INPROGRESS` when the current
metadata is not yet written to the metadata log). -/
structure FlagsOut where
  needReactivation : Bool
  needUpdate : Bool
  newMetadata : Option EpochMetaData
  earlyErr : Option Status
  deriving Repr

/-- The `do { ... } while (false)` block: provisioning gate, written-flag
gate, first `updateMetaDataIfNeeded` run on the epoch-incremented copy of
the current metadata, and the stability check that runs the oracle a second
time on a copy of the produced metadata and cancels both flags unless it
returns `UNCHANGED` (the `!ld_catch(..) || !ld_catch(..)` at lines 283-312). -/
def computeFlags (env : Env) (md : EpochMetaData) (optionsChanged : Bool) :
    FlagsOut :=
  if ¬env.provisionEpochStore then
    ⟨optionsChanged, false, Option.none, Option.none⟩
  else if ¬md.writtenInMetaDataLog then
    ⟨optionsChanged, false, Option.none, some Status.INPROGRESS⟩
  else
    let tentative : EpochMetaData := { md with epoch := md.epoch + 1 }
    let o1 := env.updateMD tentative
    match o1.res with
    | UpdateResult.FAILED => ⟨optionsChanged, false, Option.none, Option.none⟩
    | UpdateResult.UNCHANGED => ⟨optionsChanged, false, Option.none, Option.none⟩
    | UpdateResult.UPDATED =>
      let needReact := optionsChanged ∨ ¬o1.onlyParams
      let o2 := env.updateMD o1.out
      if o2.res = UpdateResult.FAILED ∨ o2.res ≠ UpdateResult.UNCHANGED then
        ⟨false, false, some o1.out, Option.none⟩
      else
        ⟨decide needReact, true, some o1.out, Option.none⟩

/-- Act phase of `reprovisionOrReactivateIfNeeded` (source lines 316-410):
an early `return -1` from the flag block, or the `activateSequencer` call
bumping `sequencer_reactivations_for_metadata_update`, or the epoch-store
write bumping `metadata_updates_without_sequencer_reactivation`, or
`err = E::UPTODATE`.  `currentEpoch` is the epoch of the sequencer's
current metadata. -/
def actPhase (env : Env) (currentEpoch : Nat) (fl : FlagsOut) :
    ReprovisionResult :=
  match fl.earlyErr with
  | some e => ⟨-1, e, ReprovisionAction.none, 0, 0⟩
  | Option.none =>
    if fl.needReactivation then
      let act := ReprovisionAction.reactivate (currentEpoch + 1) fl.newMetadata
      match env.activateResult with
      | Option.none => ⟨0, Status.OK, act, 1, 0⟩
      | some e => ⟨-1, e, act, 1, 0⟩
    else if fl.needUpdate then
      let act := ReprovisionAction.epochStoreWrite (currentEpoch + 1)
        (((fl.newMetadata).map (fun m => m.nodeset_params)).getD 0)
      match env.epochStoreResult with
      | Option.none => ⟨0, Status.OK, act, 0, 1⟩
      | some e => ⟨-1, e, act, 0, 1⟩
    else
      ⟨-1, Status.UPTODATE, ReprovisionAction.none, 0, 0⟩

/-- Translation of `SequencerBackgroundActivator::reprovisionOrReactivateIfNeeded`
(source lines 109-411), translated step by step: state/metadata gate,
empty/disabled internal check, config lookup, epoch-exhaustion gate,
options comparison, the flag-computing block, then the act phase
(`activateSequencer`, or the epoch-store write, or `err = E::UPTODATE`). -/
def reprovisionOrReactivateIfNeeded (env : Env) (seq : Sequencer) :
    ReprovisionResult :=
  if seq.state ≠ SeqState.ACTIVE ∨ seq.metadata = Option.none then
    ⟨-1,
      (if seq.state = SeqState.ACTIVATING then Status.INPROGRESS
       else Status.NOSEQUENCER),
      ReprovisionAction.none, 0, 0⟩
  else
    match seq.metadata with
    | Option.none => ⟨-1, Status.NOSEQUENCER, ReprovisionAction.none, 0, 0⟩
    | some md =>
      if md.isEmpty ∨ md.disabled then
        ⟨-1, Status.INTERNAL, ReprovisionAction.none, 0, 0⟩
      else if ¬env.logInConfig then
        ⟨-1, Status.NOTFOUND, ReprovisionAction.none, 0, 0⟩
      else if EPOCH_MAX - 2 ≤ md.epoch then
        ⟨-1, Status.TOOBIG, ReprovisionAction.none, 0, 0⟩
      else
        match seq.options with
        | Option.none => ⟨-1, Status.NOSEQUENCER, ReprovisionAction.none, 0, 0⟩
        | some curOptions =>
          actPhase env md.epoch
            (computeFlags env md (decide (env.newOptions ≠ curOptions)))

/-- Global environment for the engine: whether this node has sequencing
enabled in the current nodes configuration, the effect of
`seq->noteConfigurationChanged(config, is_sequencer_node)` on a sequencer,
and the per-log reconciler environment. -/
structure GEnv where
  isSequencerNode : Bool
  noteConfig : Sequencer → Sequencer
  renvOf : Nat → Env

/-- Observable outcome of `processOneLog`: the returned bool (`true` = done,
caller erases the id), the updated sequencer object (if one existed), whether
the budget token was moved into the sequencer's slot, and the action-counter
increments performed by the inner call. -/
structure POLOut where
  done : Bool
  seq : Option Sequencer
  moved : Bool
  statReact : Nat
  statMeta : Nat
  deriving DecidableEq, Repr

/-- Translation of `SequencerBackgroundActivator::processOneLog` (source lines 48-107):
no sequencer → done; token slot occupied → done; notify config change;
not a sequencer node → done; otherwise run the inner reconciler and map its
`rv`/`err` to done/defer, with the retry set
`{FAILED, NOBUFS, TOOMANY, NOTCONN, ACCESS}` (lines 89-90), and move the
token into the sequencer when `rv = 0`. -/
def processOneLog (genv : GEnv) (logid : Nat) (seq0 : Option Sequencer) :
    POLOut :=
  match seq0 with
  | Option.none => ⟨true, Option.none, false, 0, 0⟩
  | some q =>
    if q.tokenValid then ⟨true, some q, false, 0, 0⟩
    else
      let q1 := genv.noteConfig q
      if ¬genv.isSequencerNode then ⟨true, some q1, false, 0, 0⟩
      else
        let r := reprovisionOrReactivateIfNeeded (genv.renvOf logid) q1
        if r.rv = 0 then
          ⟨true, some { q1 with tokenValid := true }, true, r.statReact, r.statMeta⟩
        else if r.err = Status.UPTODATE then
          ⟨true, some q1, false, r.statReact, r.statMeta⟩
        else
          let shouldRetry : Bool := decide (r.err = Status.FAILED ∨
            r.err = Status.NOBUFS ∨ r.err = Status.TOOMANY ∨
            r.err = Status.NOTCONN ∨ r.err = Status.ACCESS)
          ⟨!shouldRetry, some q1, false, r.statReact, r.statMeta⟩

/-- State of the engine's single one-shot retry timer: `off`, or armed with
an explicit timeout in microseconds (`armed none` = armed with the default
`sequencer_background_activation_retry_interval` setting). -/
inductive TimerState where
  | off
  | armed (timeout : Option Nat)
  deriving DecidableEq, Repr

/-- The engine's state: the pending set `queue_` (an ordered set of log ids,
kept as a sorted duplicate-free list), the sequencer registry slice the
engine touches (log id → sequencer), the budget (`limit` and in-use token
count; `available = limit - inUse`), the retry timer, and the four worker
counters. -/
structure DState where
  queue : List Nat
  seqs : List (Nat × Sequencer)
  inUse : Nat
  limit : Nat
  timer : TimerState
  statScheduled : Nat
  statCompleted : Nat
  statReact : Nat
  statMeta : Nat
  deriving DecidableEq, Repr

/-- Ordered-set insertion (`queue_.insert(id)` on `std::set`): returns the
new list and the `was-new` bit of the returned pair. -/
def setInsert (x : Nat) : List Nat → List Nat × Bool
  | [] => ([x], true)
  | y :: ys =>
    if x = y then (y :: ys, false)
    else if x < y then (x :: y :: ys, true)
    else
      let r := setInsert x ys
      (y :: r.1, r.2)

/-- Lookup `AllSequencers::findSequencer` over the modelled registry slice. -/
def lookupSeq (l : Nat) : List (Nat × Sequencer) → Option Sequencer
  | [] => Option.none
  | (k, q) :: rest => if k = l then some q else lookupSeq l rest

/-- Replace the sequencer object registered for log `l` (the in-place
mutations `processOneLog`/`notifyCompletion` perform on `*seq`). -/
def updateSeq (l : Nat) (q : Sequencer) :
    List (Nat × Sequencer) → List (Nat × Sequencer)
  | [] => []
  | (k, q0) :: rest =>
    if k = l then (l, q) :: rest else (k, q0) :: updateSeq l q rest

/-- Number of sequencers currently holding an attached background token. -/
def attachedCount : List (Nat × Sequencer) → Nat
  | [] => 0
  | (_, q) :: rest => (if q.tokenValid then 1 else 0) + attachedCount rest

/-- One iteration body of the drain loop in `maybeProcessQueue` (source
lines 473-494): take the first pending id, acquire a token, run
`processOneLog`; on `true` erase the id and, when the token was not moved,
release it and bump the completed counter; on `false` release the token,
arm the retry timer with the default interval and stop.  Returns the new
state and whether the loop continues. -/
def drainBody (genv : GEnv) (s : DState) : DState × Bool :=
  match s.queue with
  | [] => (s, false)
  | l :: rest =>
    let pol := processOneLog genv l (lookupSeq l s.seqs)
    let seqs1 := match pol.seq with
      | some q1 => updateSeq l q1 s.seqs
      | Option.none => s.seqs
    let s1 : DState := { s with
      inUse := s.inUse + 1,
      seqs := seqs1,
      statReact := s.statReact + pol.statReact,
      statMeta := s.statMeta + pol.statMeta }
    if pol.done then
      let s2 := { s1 with queue := rest }
      if pol.moved then (s2, true)
      else
        ({ s2 with inUse := s2.inUse - 1,
                   statCompleted := s2.statCompleted + 1 }, true)
    else
      ({ s1 with inUse := s1.inUse - 1,
                 timer := TimerState.armed Option.none }, false)

/-- The `while (!queue_.empty() && budget_->available() > 0)` loop of
`maybeProcessQueue` (source lines 464-495), with the made-progress
time check: from the second iteration on (`k ≠ 0`), if the elapsed-time
oracle reports more than 2000 microseconds, arm the timer for 5000
microseconds and exit.  `fuel` bounds the recursion; each continuing
iteration removes the head of the queue, so `queue.length` fuel is exact. -/
def drainLoop (genv : GEnv) (elapsed : Nat → Nat) :
    Nat → Nat → DState → DState
  | 0, _, s => s
  | fuel + 1, k, s =>
    if s.queue = [] then s
    else if s.limit ≤ s.inUse then s
    else if k ≠ 0 ∧ 2000 < elapsed k then
      { s with timer := TimerState.armed (some 5000) }
    else
      let r := drainBody genv s
      if r.2 then drainLoop genv elapsed fuel (k + 1) r.1 else r.1

/-- Translation of `SequencerBackgroundActivator::maybeProcessQueue` (source lines
448-496): cancel the retry timer, re-read the budget limit from settings
(`L`), then run the drain loop.  `elapsed k` models `usec_since(start_time)`
as observed at the time check of iteration `k`. -/
def maybeProcessQueue (genv : GEnv) (elapsed : Nat → Nat) (L : Nat)
    (s : DState) : DState :=
  drainLoop genv elapsed s.queue.length 0
    { s with timer := TimerState.off, limit := L }

/-- The intake part of `SequencerBackgroundActivator::notifyCompletion`
(source lines 413-443, everything before the final `maybeProcessQueue()`):
ignore metadata logs and logs without a sequencer; release the sequencer's
attached token if it held one; re-insert the id into the pending set; bump
`completed` iff a token was released and the id was already pending, bump
`scheduled` iff no token was held and the insertion was new. -/
def notifyIntake (logid : Nat) (s : DState) : DState :=
  if isMetaDataLog logid then s
  else
    match lookupSeq logid s.seqs with
    | Option.none => s
    | some q =>
      let hadToken := q.tokenValid
      let s1 : DState :=
        if hadToken then
          { s with seqs := updateSeq logid { q with tokenValid := false } s.seqs,
                   inUse := s.inUse - 1 }
        else s
      let ins := setInsert logid s1.queue
      let s2 := { s1 with queue := ins.1 }
      let s3 :=
        if hadToken ∧ ¬ins.2 then
          { s2 with statCompleted := s2.statCompleted + 1 }
        else s2
      if ¬hadToken ∧ ins.2 then
        { s3 with statScheduled := s3.statScheduled + 1 }
      else s3

/-- Translation of `SequencerBackgroundActivator::notifyCompletion` (source lines
413-446): the intake above followed by `maybeProcessQueue()`.  The status
argument `st` is ignored by the source (`Status /* st */`). -/
def notifyCompletion (genv : GEnv) (elapsed : Nat → Nat) (L : Nat)
    (logid : Nat) (st : Status) (s : DState) : DState :=
  maybeProcessQueue genv elapsed L (notifyIntake logid s)

/-! Concrete fixtures used to instantiate the theorems below on explicit
inputs. -/

/-- A well-formed epoch metadata record at epoch 5. -/
def mdFix : EpochMetaData :=
  { epoch := 5, writtenInMetaDataLog := true, isEmpty := false,
    disabled := false, nodeset_params := 0, payload := 0 }

/-- An active sequencer holding `mdFix`, options `0`, no attached token. -/
def seqFix : Sequencer :=
  { state := SeqState.ACTIVE, metadata := some mdFix, options := some 0,
    tokenValid := false }

/-- Metadata at the epoch-exhaustion boundary. -/
def mdBig : EpochMetaData := { mdFix with epoch := EPOCH_MAX - 2 }

/-- Sequencer holding `mdBig`. -/
def seqBig : Sequencer := { seqFix with metadata := some mdBig }

/-- Reconciler oracle that never wants a change. -/
def uNoop : EpochMetaData → UpdateOutcome :=
  fun m => ⟨UpdateResult.UNCHANGED, true, m⟩

/-- Reconciler oracle that fails on every input. -/
def uFail : EpochMetaData → UpdateOutcome :=
  fun m => ⟨UpdateResult.FAILED, true, m⟩

/-- Non-convergent reconciler oracle: asks for a params update on every
input, including its own output. -/
def uOsc : EpochMetaData → UpdateOutcome :=
  fun m =>
    ⟨UpdateResult.UPDATED, true, { m with nodeset_params := m.nodeset_params + 1 }⟩

/-- Convergent params-only reconciler oracle: rewrites `nodeset_params`
from 0 to 1 once, then reports `UNCHANGED`. -/
def uStable : EpochMetaData → UpdateOutcome :=
  fun m =>
    if m.nodeset_params = 0 then
      ⟨UpdateResult.UPDATED, true, { m with nodeset_params := 1 }⟩
    else ⟨UpdateResult.UNCHANGED, true, m⟩

/-- Options changed, epoch-store provisioning off, `activateSequencer`
fails synchronously with `E::SYSLIMIT`. -/
def envSyslimit : Env :=
  { provisionEpochStore := false, logInConfig := true, newOptions := 1,
    updateMD := uNoop, activateResult := some Status.SYSLIMIT,
    epochStoreResult := Option.none }

/-- Options changed, epoch-store provisioning off, `activateSequencer`
fails synchronously with `E::NOBUFS`. -/
def envNobufs : Env := { envSyslimit with activateResult := some Status.NOBUFS }

/-- Options changed and first reconciler pass fails. -/
def envOptFail : Env :=
  { provisionEpochStore := true, logInConfig := true, newOptions := 1,
    updateMD := uFail, activateResult := Option.none,
    epochStoreResult := Option.none }

/-- Options unchanged and first reconciler pass fails. -/
def envFailOnly : Env := { envOptFail with newOptions := 0 }

/-- Options unchanged, non-convergent reconciler. -/
def envOsc : Env := { envFailOnly with updateMD := uOsc }

/-- Options unchanged, convergent params-only update, epoch-store write
succeeds. -/
def envParams : Env := { envFailOnly with updateMD := uStable }

/-- Like `envParams` but the epoch-store write fails synchronously with
`E::NOTCONN`. -/
def envParamsFail : Env :=
  { envParams with epochStoreResult := some Status.NOTCONN }

/-- Global environment whose `noteConfigurationChanged` is a no-op and
whose per-log reconciler environment is constantly `e`. -/
def mkGEnv (e : Env) : GEnv :=
  { isSequencerNode := true, noteConfig := fun q => q, renvOf := fun _ => e }

/-- Engine state with log 7 pending and sequencer `q` registered for it. -/
def stOf (q : Sequencer) : DState :=
  { queue := [7], seqs := [(7, q)], inUse := 0, limit := 1,
    timer := TimerState.off, statScheduled := 0, statCompleted := 0,
    statReact := 0, statMeta := 0 }

/-! Theorems. -/

/-- C9: for every log id and any two completion statuses `st1` and `st2`,
`notifyCompletion(id, st1)` and `notifyCompletion(id, st2)` produce the same
engine state (state changes and metric updates included): the status
argument is ignored by the completion intake. -/
theorem C9_status_ignored (genv : GEnv) (elapsed : Nat → Nat) (L : Nat)
    (logid : Nat) (st1 st2 : Status) (s : DState) :
    notifyCompletion genv elapsed L logid st1 s =
      notifyCompletion genv elapsed L logid st2 s := rfl

/-- C3: in the completion-intake accounting of `notifyCompletion` (the part
of the function before the final drain), on a non-metadata log that has a
sequencer, the completed counter is incremented exactly when the sequencer
held a token (which is then released) and the id was already pending, and
the scheduled counter is incremented exactly when no token was held and the
insertion was new; in the other two combinations neither counter changes. -/
theorem C3_intake_counters (l : Nat) (s : DState) (q : Sequencer)
    (hm : isMetaDataLog l = false)
    (hq : lookupSeq l s.seqs = some q) :
    (notifyIntake l s).statCompleted =
      s.statCompleted +
        (if q.tokenValid ∧ ¬(setInsert l s.queue).2 then 1 else 0) ∧
    (notifyIntake l s).statScheduled =
      s.statScheduled +
        (if ¬q.tokenValid ∧ (setInsert l s.queue).2 then 1 else 0) := by
  simp only [notifyIntake, hm, hq, Bool.false_eq_true, if_false]
  by_cases htok : q.tokenValid <;>
    by_cases hins : (setInsert l s.queue).2 <;>
      simp [htok, hins]

/-- Witness for C3: concrete instance where the sequencer held a token and
the id was already pending, so only `completed` is bumped. -/
theorem C3_intake_counters_witness :
    (notifyIntake 7 (stOf { seqFix with tokenValid := true })).statCompleted =
        (stOf { seqFix with tokenValid := true }).statCompleted + 1 ∧
    (notifyIntake 7 (stOf { seqFix with tokenValid := true })).statScheduled =
        (stOf { seqFix with tokenValid := true }).statScheduled := by
  have h := C3_intake_counters 7 (stOf { seqFix with tokenValid := true })
    { seqFix with tokenValid := true } (by decide) (by decide)
  exact ⟨by rw [h.1]; decide, by rw [h.2]; decide⟩

/-- Helper: the act phase only reactivates with acceptable epoch
`currentEpoch + 1`. -/
theorem actPhase_reactivate_epoch (env : Env) (ce : Nat) (fl : FlagsOut)
    (ep : Nat) (m : Option EpochMetaData)
    (h : (actPhase env ce fl).action = ReprovisionAction.reactivate ep m) :
    ep = ce + 1 := by
  unfold actPhase at h
  repeat' split at h
  all_goals simp_all

/-- Helper: the act phase bumps the matching counter whenever it attempts
an action, and surfaces a synchronous failure as `rv = -1` with that
error. -/
theorem actPhase_attempt_stats (env : Env) (ce : Nat) (fl : FlagsOut)
    (ep : Nat) (m : Option EpochMetaData) (p : Nat) (e : Status) :
    ((actPhase env ce fl).action = ReprovisionAction.reactivate ep m →
      (actPhase env ce fl).statReact = 1 ∧
      (env.activateResult = some e →
        (actPhase env ce fl).rv = -1 ∧ (actPhase env ce fl).err = e)) ∧
    ((actPhase env ce fl).action = ReprovisionAction.epochStoreWrite ep p →
      (actPhase env ce fl).statMeta = 1 ∧
      (env.epochStoreResult = some e →
        (actPhase env ce fl).rv = -1 ∧ (actPhase env ce fl).err = e)) := by
  unfold actPhase
  repeat' split
  all_goals simp_all

/-- Helper: `reprovisionOrReactivateIfNeeded` either stops at a gate with
no action, or (for an active sequencer with metadata and options) is the
act phase applied to the computed flags. -/
theorem reprov_cases (env : Env) (seq : Sequencer) :
    (reprovisionOrReactivateIfNeeded env seq).action =
      ReprovisionAction.none ∨
    ∃ md curOptions, seq.metadata = some md ∧
      seq.options = some curOptions ∧
      reprovisionOrReactivateIfNeeded env seq =
        actPhase env md.epoch
          (computeFlags env md (decide (env.newOptions ≠ curOptions))) := by
  unfold reprovisionOrReactivateIfNeeded
  split
  · left; rfl
  · split
    · left; rfl
    · rename_i md hmd
      split
      · left; rfl
      · split
        · left; rfl
        · split
          · left; rfl
          · split
            · left; rfl
            · rename_i curOptions hcur
              right
              exact ⟨md, curOptions, hmd, hcur, rfl⟩

/-- C6: every reactivation issued by the engine passes
`acceptable_activation_epoch` equal to the sequencer's current epoch plus
one to the sequencer registry's activate call. -/
theorem C6_acceptable_epoch (env : Env) (seq : Sequencer) (ep : Nat)
    (md : Option EpochMetaData)
    (h : (reprovisionOrReactivateIfNeeded env seq).action =
      ReprovisionAction.reactivate ep md) :
    ∃ m, seq.metadata = some m ∧ ep = m.epoch + 1 := by
  rcases reprov_cases env seq with hnone | ⟨md', cur, hmd, hcur, heq⟩
  · rw [hnone] at h
    simp at h
  · rw [heq] at h
    exact ⟨md', hmd, actPhase_reactivate_epoch env md'.epoch _ ep md h⟩

/-- Witness for C6: a concrete reactivation (options changed on `seqFix`,
epoch 5) uses acceptable epoch 6. -/
theorem C6_acceptable_epoch_witness :
    ∃ m, seqFix.metadata = some m ∧ 6 = m.epoch + 1 :=
  C6_acceptable_epoch envSyslimit seqFix 6 Option.none (by decide)

/-- C10: the action counters count attempts: when the act phase reaches the
reactivation branch, `sequencer_reactivations_for_metadata_update` is
incremented even if `activateSequencer` fails synchronously (in which case
the call returns -1 with that error); symmetrically for
`metadata_updates_without_sequencer_reactivation` and the epoch-store
write. -/
theorem C10_counters_count_attempts (env : Env) (seq : Sequencer) (ep : Nat)
    (md : Option EpochMetaData) (p : Nat) (e : Status) :
    ((reprovisionOrReactivateIfNeeded env seq).action =
        ReprovisionAction.reactivate ep md →
      (reprovisionOrReactivateIfNeeded env seq).statReact = 1 ∧
      (env.activateResult = some e →
        (reprovisionOrReactivateIfNeeded env seq).rv = -1 ∧
        (reprovisionOrReactivateIfNeeded env seq).err = e)) ∧
    ((reprovisionOrReactivateIfNeeded env seq).action =
        ReprovisionAction.epochStoreWrite ep p →
      (reprovisionOrReactivateIfNeeded env seq).statMeta = 1 ∧
      (env.epochStoreResult = some e →
        (reprovisionOrReactivateIfNeeded env seq).rv = -1 ∧
        (reprovisionOrReactivateIfNeeded env seq).err = e)) := by
  rcases reprov_cases env seq with hnone | ⟨md', cur, hmd, hcur, heq⟩
  · constructor
    · intro h
      rw [hnone] at h
      simp at h
    · intro h
      rw [hnone] at h
      simp at h
  · rw [heq]
    exact actPhase_attempt_stats env md'.epoch _ ep md p e

/-- Witness for C10: with `envSyslimit` the reactivation counter is bumped
although `activateSequencer` failed; with `envParamsFail` the
metadata-update counter is bumped although the epoch-store write failed. -/
theorem C10_counters_count_attempts_witness :
    (reprovisionOrReactivateIfNeeded envSyslimit seqFix).statReact = 1 ∧
    (reprovisionOrReactivateIfNeeded envSyslimit seqFix).rv = -1 ∧
    (reprovisionOrReactivateIfNeeded envParamsFail seqFix).statMeta = 1 ∧
    (reprovisionOrReactivateIfNeeded envParamsFail seqFix).rv = -1 := by
  have h1 := (C10_counters_count_attempts envSyslimit seqFix 6 Option.none 0
    Status.SYSLIMIT).1 (by decide)
  have h2 := (C10_counters_count_attempts envParamsFail seqFix 6 Option.none 1
    Status.NOTCONN).2 (by decide)
  exact ⟨h1.1, (h1.2 (by decide)).1, h2.1, (h2.2 (by decide)).1⟩

/-- C5: for every log whose current epoch is at least `EPOCH_MAX - 2`, the
inner reconciler attempts no reactivation and no metadata write: it returns
-1 with `E::TOOBIG` before consulting the metadata-update oracle (the
result does not depend on it: it is the same fixed record for every
environment reaching this gate), and the outcome is terminal for the pass:
the decision procedure returns done, the id is erased by the drain loop and
no retry timer is armed. -/
theorem C5_epoch_exhaustion_terminal (env : Env) (seq : Sequencer)
    (md : EpochMetaData)
    (hst : seq.state = SeqState.ACTIVE)
    (hmd : seq.metadata = some md)
    (he : md.isEmpty = false) (hd : md.disabled = false)
    (hc : env.logInConfig = true)
    (hep : EPOCH_MAX - 2 ≤ md.epoch) :
    reprovisionOrReactivateIfNeeded env seq =
      ⟨-1, Status.TOOBIG, ReprovisionAction.none, 0, 0⟩ ∧
    (∀ genv l q, genv.renvOf l = env → genv.noteConfig q = seq →
      genv.isSequencerNode = true → q.tokenValid = false →
      processOneLog genv l (some q) = ⟨true, some seq, false, 0, 0⟩) ∧
    (∀ genv s l rest q, genv.renvOf l = env → genv.noteConfig q = seq →
      genv.isSequencerNode = true → q.tokenValid = false →
      s.queue = l :: rest → lookupSeq l s.seqs = some q →
      (drainBody genv s).1.queue = rest ∧
      (drainBody genv s).1.timer = s.timer ∧ (drainBody genv s).2 = true) := by
  have h1 : reprovisionOrReactivateIfNeeded env seq =
      ⟨-1, Status.TOOBIG, ReprovisionAction.none, 0, 0⟩ := by
    simp [reprovisionOrReactivateIfNeeded, hst, hmd, he, hd, hc, hep]
  have h2 : ∀ genv l q, genv.renvOf l = env → genv.noteConfig q = seq →
      genv.isSequencerNode = true → q.tokenValid = false →
      processOneLog genv l (some q) = ⟨true, some seq, false, 0, 0⟩ := by
    intro genv l q hre hnc hn hq
    simp [processOneLog, hq, hn, hre, hnc, h1]
  refine ⟨h1, h2, ?_⟩
  intro genv s l rest q hre hnc hn hq hsq hlk
  have hp := h2 genv l q hre hnc hn hq
  simp [drainBody, hsq, hlk, hp]

/-- Witness for C5: `seqBig` sits at epoch `EPOCH_MAX - 2`; the reconciler
returns the fixed `TOOBIG` record, the decision procedure returns done and
the drain step erases the id without arming the timer. -/
theorem C5_epoch_exhaustion_terminal_witness :
    reprovisionOrReactivateIfNeeded envParams seqBig =
      ⟨-1, Status.TOOBIG, ReprovisionAction.none, 0, 0⟩ ∧
    (processOneLog (mkGEnv envParams) 7 (some seqBig)).done = true ∧
    (drainBody (mkGEnv envParams) (stOf seqBig)).1.queue = [] ∧
    (drainBody (mkGEnv envParams) (stOf seqBig)).1.timer =
      (stOf seqBig).timer := by
  have h := C5_epoch_exhaustion_terminal envParams seqBig mdBig rfl rfl rfl rfl
    rfl (le_refl _)
  refine ⟨h.1, ?_, ?_, ?_⟩
  · rw [h.2.1 (mkGEnv envParams) 7 seqBig rfl rfl rfl rfl]
  · exact (h.2.2 (mkGEnv envParams) (stOf seqBig) 7 [] seqBig rfl rfl rfl rfl
      rfl rfl).1
  · exact (h.2.2 (mkGEnv envParams) (stOf seqBig) 7 [] seqBig rfl rfl rfl rfl
      rfl rfl).2.1

/-- C2 as stated is false: when the sequencer's immutable options also
changed, a first-pass reconciler `FAILED` does not prevent the pass from
acting — `need_reactivation` is already set, so the engine still asks the
sequencer registry to reactivate (with a null proposed metadata).  Concrete
input: `envOptFail` (options changed, reconciler fails) on `seqFix`. -/
theorem C2_counterexample :
    (envOptFail.updateMD { mdFix with epoch := mdFix.epoch + 1 }).res =
      UpdateResult.FAILED ∧
    (reprovisionOrReactivateIfNeeded envOptFail seqFix).action =
      ReprovisionAction.reactivate 6 Option.none := by decide

/-- C2 amended: for every log whose metadata reconciler returns `FAILED` on
the first pass, provided the sequencer's immutable options are unchanged,
the pass issues no action — neither a reactivation nor an epoch-store
write — reports `E::UPTODATE`, and does not retry: the decision procedure
returns done and the drain loop erases the id without arming the timer. -/
theorem C2_reconciler_failed_no_action (env : Env) (seq : Sequencer)
    (md : EpochMetaData) (o : Nat)
    (hst : seq.state = SeqState.ACTIVE)
    (hmd : seq.metadata = some md)
    (he : md.isEmpty = false) (hd : md.disabled = false)
    (hc : env.logInConfig = true)
    (hep : md.epoch < EPOCH_MAX - 2)
    (hopt : seq.options = some o)
    (hOptEq : env.newOptions = o)
    (hprov : env.provisionEpochStore = true)
    (hwr : md.writtenInMetaDataLog = true)
    (hfail : (env.updateMD { md with epoch := md.epoch + 1 }).res =
      UpdateResult.FAILED) :
    reprovisionOrReactivateIfNeeded env seq =
      ⟨-1, Status.UPTODATE, ReprovisionAction.none, 0, 0⟩ ∧
    (∀ genv l q, genv.renvOf l = env → genv.noteConfig q = seq →
      genv.isSequencerNode = true → q.tokenValid = false →
      processOneLog genv l (some q) = ⟨true, some seq, false, 0, 0⟩) ∧
    (∀ genv s l rest q, genv.renvOf l = env → genv.noteConfig q = seq →
      genv.isSequencerNode = true → q.tokenValid = false →
      s.queue = l :: rest → lookupSeq l s.seqs = some q →
      (drainBody genv s).1.queue = rest ∧
      (drainBody genv s).1.timer = s.timer ∧ (drainBody genv s).2 = true) := by
  obtain ⟨mep, mwr, mem, mdis, mnp, mpl⟩ := md
  simp only at he hd hwr hep hmd hfail
  subst he
  subst hd
  subst hwr
  have hep2 : ¬(EPOCH_MAX - 2 ≤ mep) := Nat.not_le.mpr hep
  have h1 : reprovisionOrReactivateIfNeeded env seq =
      ⟨-1, Status.UPTODATE, ReprovisionAction.none, 0, 0⟩ := by
    simp [reprovisionOrReactivateIfNeeded, actPhase, computeFlags, hst, hmd,
      hc, hep2, hopt, hOptEq, hprov, hfail]
  have h2 : ∀ genv l q, genv.renvOf l = env → genv.noteConfig q = seq →
      genv.isSequencerNode = true → q.tokenValid = false →
      processOneLog genv l (some q) = ⟨true, some seq, false, 0, 0⟩ := by
    intro genv l q hre hnc hn hq
    simp [processOneLog, hq, hn, hre, hnc, h1]
  refine ⟨h1, h2, ?_⟩
  intro genv s l rest q hre hnc hn hq hsq hlk
  have hp := h2 genv l q hre hnc hn hq
  simp [drainBody, hsq, hlk, hp]

/-- Witness for the amended C2: `envFailOnly` (options unchanged, first
reconciler pass fails) on `seqFix` yields the `UPTODATE` no-action record,
a done decision and a timer-free erase. -/
theorem C2_reconciler_failed_no_action_witness :
    reprovisionOrReactivateIfNeeded envFailOnly seqFix =
      ⟨-1, Status.UPTODATE, ReprovisionAction.none, 0, 0⟩ ∧
    (processOneLog (mkGEnv envFailOnly) 7 (some seqFix)).done = true ∧
    (drainBody (mkGEnv envFailOnly) (stOf seqFix)).1.queue = [] ∧
    (drainBody (mkGEnv envFailOnly) (stOf seqFix)).1.timer =
      (stOf seqFix).timer := by
  have h := C2_reconciler_failed_no_action envFailOnly seqFix mdFix 0 rfl rfl
    rfl rfl rfl (by decide) rfl rfl rfl rfl (by decide)
  refine ⟨h.1, ?_, ?_, ?_⟩
  · rw [h.2.1 (mkGEnv envFailOnly) 7 seqFix rfl rfl rfl rfl]
  · exact (h.2.2 (mkGEnv envFailOnly) (stOf seqFix) 7 [] seqFix rfl rfl rfl rfl
      rfl rfl).1
  · exact (h.2.2 (mkGEnv envFailOnly) (stOf seqFix) 7 [] seqFix rfl rfl rfl rfl
      rfl rfl).2.1

/-- C7: whenever the first reconcile pass returns `UPDATED` and the second
run (on the produced tentative metadata) returns anything other than
`UNCHANGED`, both flags are cleared: no action is issued for the log
(whether or not the options changed), no counters move, the pass reports
`E::UPTODATE` and so succeeds — the decision procedure returns done and the
drain loop erases the id without arming the timer. -/
theorem C7_stability_check_cancels (env : Env) (seq : Sequencer)
    (md : EpochMetaData) (o : Nat)
    (hst : seq.state = SeqState.ACTIVE)
    (hmd : seq.metadata = some md)
    (he : md.isEmpty = false) (hd : md.disabled = false)
    (hc : env.logInConfig = true)
    (hep : md.epoch < EPOCH_MAX - 2)
    (hopt : seq.options = some o)
    (hprov : env.provisionEpochStore = true)
    (hwr : md.writtenInMetaDataLog = true)
    (hupd : (env.updateMD { md with epoch := md.epoch + 1 }).res =
      UpdateResult.UPDATED)
    (hosc : (env.updateMD (env.updateMD { md with epoch := md.epoch + 1 }).out).res ≠
      UpdateResult.UNCHANGED) :
    reprovisionOrReactivateIfNeeded env seq =
      ⟨-1, Status.UPTODATE, ReprovisionAction.none, 0, 0⟩ ∧
    (∀ genv l q, genv.renvOf l = env → genv.noteConfig q = seq →
      genv.isSequencerNode = true → q.tokenValid = false →
      processOneLog genv l (some q) = ⟨true, some seq, false, 0, 0⟩) ∧
    (∀ genv s l rest q, genv.renvOf l = env → genv.noteConfig q = seq →
      genv.isSequencerNode = true → q.tokenValid = false →
      s.queue = l :: rest → lookupSeq l s.seqs = some q →
      (drainBody genv s).1.queue = rest ∧
      (drainBody genv s).1.timer = s.timer ∧ (drainBody genv s).2 = true) := by
  obtain ⟨mep, mwr, mem, mdis, mnp, mpl⟩ := md
  simp only at he hd hwr hep hmd hupd hosc
  subst he
  subst hd
  subst hwr
  have hep2 : ¬(EPOCH_MAX - 2 ≤ mep) := Nat.not_le.mpr hep
  have h1 : reprovisionOrReactivateIfNeeded env seq =
      ⟨-1, Status.UPTODATE, ReprovisionAction.none, 0, 0⟩ := by
    simp [reprovisionOrReactivateIfNeeded, actPhase, computeFlags, hst, hmd,
      hc, hep2, hopt, hprov, hupd, hosc]
  have h2 : ∀ genv l q, genv.renvOf l = env → genv.noteConfig q = seq →
      genv.isSequencerNode = true → q.tokenValid = false →
      processOneLog genv l (some q) = ⟨true, some seq, false, 0, 0⟩ := by
    intro genv l q hre hnc hn hq
    simp [processOneLog, hq, hn, hre, hnc, h1]
  refine ⟨h1, h2, ?_⟩
  intro genv s l rest q hre hnc hn hq hsq hlk
  have hp := h2 genv l q hre hnc hn hq
  simp [drainBody, hsq, hlk, hp]

/-- Witness for C7: the non-convergent oracle `uOsc` (in `envOsc`) returns
`UPDATED` twice; the pass is cancelled into the `UPTODATE` no-action record
and the id is erased without a timer. -/
theorem C7_stability_check_cancels_witness :
    reprovisionOrReactivateIfNeeded envOsc seqFix =
      ⟨-1, Status.UPTODATE, ReprovisionAction.none, 0, 0⟩ ∧
    (processOneLog (mkGEnv envOsc) 7 (some seqFix)).done = true ∧
    (drainBody (mkGEnv envOsc) (stOf seqFix)).1.queue = [] ∧
    (drainBody (mkGEnv envOsc) (stOf seqFix)).1.timer =
      (stOf seqFix).timer := by
  have h := C7_stability_check_cancels envOsc seqFix mdFix 0 rfl rfl rfl rfl
    rfl (by decide) rfl rfl rfl (by decide) (by decide)
  refine ⟨h.1, ?_, ?_, ?_⟩
  · rw [h.2.1 (mkGEnv envOsc) 7 seqFix rfl rfl rfl rfl]
  · exact (h.2.2 (mkGEnv envOsc) (stOf seqFix) 7 [] seqFix rfl rfl rfl rfl
      rfl rfl).1
  · exact (h.2.2 (mkGEnv envOsc) (stOf seqFix) 7 [] seqFix rfl rfl rfl rfl
      rfl rfl).2.1

/-- C1 as stated is false for `E::SYSLIMIT`: the decision procedure's retry
set (source lines 89-90) is `{FAILED, NOBUFS, TOOMANY, NOTCONN, ACCESS}` —
it does not contain `SYSLIMIT`.  Concrete input: `activateSequencer` fails
with `SYSLIMIT`; the inner reconciler returns -1/`SYSLIMIT`, yet
`processOneLog` returns done, the drain loop erases the id and the retry
timer stays off. -/
theorem C1_counterexample :
    (reprovisionOrReactivateIfNeeded envSyslimit seqFix).rv = -1 ∧
    (reprovisionOrReactivateIfNeeded envSyslimit seqFix).err =
      Status.SYSLIMIT ∧
    (processOneLog (mkGEnv envSyslimit) 7 (some seqFix)).done = true ∧
    (drainBody (mkGEnv envSyslimit) (stOf seqFix)).1.queue = [] ∧
    (drainBody (mkGEnv envSyslimit) (stOf seqFix)).1.timer =
      TimerState.off := by decide

/-- C1 amended: for every error code in the retry set
`{FAILED, NOBUFS, TOOMANY, NOTCONN, ACCESS}` (without `SYSLIMIT`) returned
by the inner reconciler, the decision procedure returns defer, and in the
drain loop the log id is kept in the pending set and the retry timer is
armed with the default interval. -/
theorem C1_transient_defers (genv : GEnv) (l : Nat) (q : Sequencer)
    (hq : q.tokenValid = false)
    (hn : genv.isSequencerNode = true)
    (hrv : (reprovisionOrReactivateIfNeeded (genv.renvOf l)
      (genv.noteConfig q)).rv = -1)
    (he : (reprovisionOrReactivateIfNeeded (genv.renvOf l)
        (genv.noteConfig q)).err = Status.FAILED ∨
      (reprovisionOrReactivateIfNeeded (genv.renvOf l)
        (genv.noteConfig q)).err = Status.NOBUFS ∨
      (reprovisionOrReactivateIfNeeded (genv.renvOf l)
        (genv.noteConfig q)).err = Status.TOOMANY ∨
      (reprovisionOrReactivateIfNeeded (genv.renvOf l)
        (genv.noteConfig q)).err = Status.NOTCONN ∨
      (reprovisionOrReactivateIfNeeded (genv.renvOf l)
        (genv.noteConfig q)).err = Status.ACCESS) :
    (processOneLog genv l (some q)).done = false ∧
    (∀ s rest, s.queue = l :: rest → lookupSeq l s.seqs = some q →
      (drainBody genv s).2 = false ∧
      (drainBody genv s).1.queue = s.queue ∧
      (drainBody genv s).1.timer = TimerState.armed Option.none) := by
  have hr0 : ¬((reprovisionOrReactivateIfNeeded (genv.renvOf l)
      (genv.noteConfig q)).rv = 0) := by rw [hrv]; decide
  have herr : ¬((reprovisionOrReactivateIfNeeded (genv.renvOf l)
      (genv.noteConfig q)).err = Status.UPTODATE) := by
    rcases he with h | h | h | h | h <;> rw [h] <;> decide
  have hretry : decide
      ((reprovisionOrReactivateIfNeeded (genv.renvOf l)
        (genv.noteConfig q)).err = Status.FAILED ∨
      (reprovisionOrReactivateIfNeeded (genv.renvOf l)
        (genv.noteConfig q)).err = Status.NOBUFS ∨
      (reprovisionOrReactivateIfNeeded (genv.renvOf l)
        (genv.noteConfig q)).err = Status.TOOMANY ∨
      (reprovisionOrReactivateIfNeeded (genv.renvOf l)
        (genv.noteConfig q)).err = Status.NOTCONN ∨
      (reprovisionOrReactivateIfNeeded (genv.renvOf l)
        (genv.noteConfig q)).err = Status.ACCESS) = true := decide_eq_true he
  have hdone : (processOneLog genv l (some q)).done = false := by
    simp [processOneLog, hq, hn, hr0, herr, hretry]
  refine ⟨hdone, ?_⟩
  intro s rest hsq hlk
  have hpol : processOneLog genv l (lookupSeq l s.seqs) =
      processOneLog genv l (some q) := by rw [hlk]
  simp [drainBody, hsq, hpol, hdone]

/-- Witness for the amended C1: `envNobufs` makes `activateSequencer` fail
with `E::NOBUFS`; the decision procedure defers, the id stays pending and
the retry timer is armed with the default interval. -/
theorem C1_transient_defers_witness :
    (processOneLog (mkGEnv envNobufs) 7 (some seqFix)).done = false ∧
    (drainBody (mkGEnv envNobufs) (stOf seqFix)).1.queue = [7] ∧
    (drainBody (mkGEnv envNobufs) (stOf seqFix)).1.timer =
      TimerState.armed Option.none := by
  have h := C1_transient_defers (mkGEnv envNobufs) 7 seqFix rfl rfl (by decide)
    (by right; left; decide)
  refine ⟨h.1, ?_, ?_⟩
  · exact (h.2 (stOf seqFix) [] rfl rfl).2.1
  · exact (h.2 (stOf seqFix) [] rfl rfl).2.2

/-! Helper lemmas about token accounting and the drain loop, shared by the
remaining theorems. -/

/-- Replacing the sequencer found for `l` exchanges its token contribution
in the attached-token count. -/
theorem attachedCount_update_lookup (l : Nat) (q q' : Sequencer)
    (seqs : List (Nat × Sequencer)) (h : lookupSeq l seqs = some q) :
    attachedCount (updateSeq l q' seqs) + (if q.tokenValid then 1 else 0) =
      attachedCount seqs + (if q'.tokenValid then 1 else 0) := by
  induction seqs with
  | nil => simp [lookupSeq] at h
  | cons p rest ih =>
    obtain ⟨k, q0⟩ := p
    by_cases hk : k = l
    · subst hk
      simp [lookupSeq] at h
      subst h
      simp [updateSeq, attachedCount]
      cases hq0 : q0.tokenValid <;> cases hq1 : q'.tokenValid <;>
        simp [hq0, hq1] <;> omega
    · simp [lookupSeq, hk] at h
      have hr := ih h
      simp [updateSeq, hk, attachedCount]
      omega

/-- A registered sequencer holding a token contributes to the count. -/
theorem attachedCount_pos (l : Nat) (q : Sequencer)
    (seqs : List (Nat × Sequencer)) (h : lookupSeq l seqs = some q)
    (hq : q.tokenValid = true) : 1 ≤ attachedCount seqs := by
  induction seqs with
  | nil => simp [lookupSeq] at h
  | cons p rest ih =>
    obtain ⟨k, q0⟩ := p
    by_cases hk : k = l
    · subst hk
      simp [lookupSeq] at h
      subst h
      simp [attachedCount, hq]
    · simp [lookupSeq, hk] at h
      have hr := ih h
      simp [attachedCount]
      omega

/-- Token discipline of `processOneLog` when `noteConfigurationChanged`
does not touch the token slot: either the token was not moved and the
sequencer's slot is as before, or it was moved into a previously empty slot
and the call reported done. -/
theorem pol_seq_token (genv : GEnv)
    (hg : ∀ q, (genv.noteConfig q).tokenValid = q.tokenValid)
    (l : Nat) (q : Sequencer) :
    ((processOneLog genv l (some q)).moved = false ∧
      ∃ q', (processOneLog genv l (some q)).seq = some q' ∧
        q'.tokenValid = q.tokenValid) ∨
    ((processOneLog genv l (some q)).moved = true ∧ q.tokenValid = false ∧
      (processOneLog genv l (some q)).done = true ∧
      ∃ q', (processOneLog genv l (some q)).seq = some q' ∧
        q'.tokenValid = true) := by
  by_cases hq : q.tokenValid
  · left
    simp [processOneLog, hq]
  · by_cases hn : genv.isSequencerNode
    · by_cases hr : (reprovisionOrReactivateIfNeeded (genv.renvOf l)
        (genv.noteConfig q)).rv = 0
      · right
        simp [processOneLog, hq, hn, hr, hg]
      · left
        by_cases herr : (reprovisionOrReactivateIfNeeded (genv.renvOf l)
          (genv.noteConfig q)).err = Status.UPTODATE
        · simp [processOneLog, hq, hn, hr, herr, hg]
        · simp [processOneLog, hq, hn, hr, herr, hg]
    · left
      simp [processOneLog, hq, hn, hg]

/-- One drain-loop iteration preserves the token-accounting invariant:
in-use tokens equal attached tokens, stay within the limit, and the limit
is untouched. -/
theorem drainBody_preserves (genv : GEnv)
    (hg : ∀ q, (genv.noteConfig q).tokenValid = q.tokenValid)
    (s : DState) (hI : s.inUse = attachedCount s.seqs)
    (hlt : s.inUse < s.limit) :
    (drainBody genv s).1.inUse = attachedCount (drainBody genv s).1.seqs ∧
    (drainBody genv s).1.inUse ≤ s.limit ∧
    (drainBody genv s).1.limit = s.limit := by
  cases hq : s.queue with
  | nil =>
    have hbody : drainBody genv s = (s, false) := by simp [drainBody, hq]
    rw [hbody]
    exact ⟨hI, Nat.le_of_lt hlt, rfl⟩
  | cons l rest =>
    cases hlk : lookupSeq l s.seqs with
    | none =>
      have hpol : processOneLog genv l (lookupSeq l s.seqs) =
          ⟨true, Option.none, false, 0, 0⟩ := by rw [hlk]; rfl
      have hbody : drainBody genv s =
          ({ s with
              queue := rest
              statCompleted := s.statCompleted + 1 }, true) := by
        simp [drainBody, hq, hpol]
      rw [hbody]
      exact ⟨hI, Nat.le_of_lt hlt, rfl⟩
    | some q =>
      rcases pol_seq_token genv hg l q with
        ⟨hmv, q', hs, htv⟩ | ⟨hmv, hqtv, hdone, q', hs, htv⟩
      · have hupd := attachedCount_update_lookup l q q' s.seqs hlk
        rw [htv] at hupd
        cases hdone : (processOneLog genv l (some q)).done with
        | false =>
          have hbody : drainBody genv s =
              ({ s with
                  seqs := updateSeq l q' s.seqs
                  statReact :=
                    s.statReact + (processOneLog genv l (some q)).statReact
                  statMeta :=
                    s.statMeta + (processOneLog genv l (some q)).statMeta
                  timer := TimerState.armed Option.none }, false) := by
            simp [drainBody, hq, hlk, hs, hdone, hmv]
          rw [hbody]
          refine ⟨?_, Nat.le_of_lt hlt, rfl⟩
          show s.inUse = attachedCount (updateSeq l q' s.seqs)
          omega
        | true =>
          have hbody : drainBody genv s =
              ({ s with
                  queue := rest
                  seqs := updateSeq l q' s.seqs
                  statReact :=
                    s.statReact + (processOneLog genv l (some q)).statReact
                  statMeta :=
                    s.statMeta + (processOneLog genv l (some q)).statMeta
                  statCompleted := s.statCompleted + 1 }, true) := by
            simp [drainBody, hq, hlk, hs, hdone, hmv]
          rw [hbody]
          refine ⟨?_, Nat.le_of_lt hlt, rfl⟩
          show s.inUse = attachedCount (updateSeq l q' s.seqs)
          omega
      · have hupd := attachedCount_update_lookup l q q' s.seqs hlk
        rw [htv, hqtv] at hupd
        simp at hupd
        have hbody : drainBody genv s =
            ({ s with
                queue := rest
                seqs := updateSeq l q' s.seqs
                inUse := s.inUse + 1
                statReact :=
                  s.statReact + (processOneLog genv l (some q)).statReact
                statMeta :=
                  s.statMeta + (processOneLog genv l (some q)).statMeta }, true) := by
          simp [drainBody, hq, hlk, hs, hdone, hmv]
        rw [hbody]
        refine ⟨?_, hlt, rfl⟩
        show s.inUse + 1 = attachedCount (updateSeq l q' s.seqs)
        omega

/-- One drain-loop iteration either reports "continue" having erased the
head of the pending set, or reports "stop" leaving the pending set intact
and arming the retry timer with the default interval. -/
theorem drainBody_step (genv : GEnv) (s : DState) (l : Nat)
    (rest : List Nat) (hq : s.queue = l :: rest) :
    ((drainBody genv s).2 = true ∧ (drainBody genv s).1.queue = rest) ∨
    ((drainBody genv s).2 = false ∧ (drainBody genv s).1.queue = s.queue ∧
      (drainBody genv s).1.timer = TimerState.armed Option.none) := by
  cases hdone : (processOneLog genv l (lookupSeq l s.seqs)).done with
  | true =>
    left
    cases hmv : (processOneLog genv l (lookupSeq l s.seqs)).moved <;>
      simp [drainBody, hq, hdone, hmv]
  | false =>
    right
    simp [drainBody, hq, hdone]

/-- Unfolding: the drain loop with no fuel returns the state. -/
theorem drainLoop_zero (genv : GEnv) (elapsed : Nat → Nat) (k : Nat)
    (s : DState) : drainLoop genv elapsed 0 k s = s := rfl

/-- Unfolding: the drain loop stops when the pending set is empty or the
budget has no free credit. -/
theorem drainLoop_succ_stop (genv : GEnv) (elapsed : Nat → Nat)
    (fuel k : Nat) (s : DState)
    (h : s.queue = [] ∨ s.limit ≤ s.inUse) :
    drainLoop genv elapsed (fuel + 1) k s = s := by
  rcases h with h | h
  · simp [drainLoop, h]
  · by_cases h1 : s.queue = []
    · simp [drainLoop, h1]
    · simp [drainLoop, h1, h]

/-- Unfolding: past the first iteration, an elapsed time over 2000
microseconds makes the drain loop arm the 5 ms timer and exit. -/
theorem drainLoop_succ_yield (genv : GEnv) (elapsed : Nat → Nat)
    (fuel k : Nat) (s : DState)
    (h1 : ¬(s.queue = [])) (h2 : ¬(s.limit ≤ s.inUse))
    (h3 : k ≠ 0) (h4 : 2000 < elapsed k) :
    drainLoop genv elapsed (fuel + 1) k s =
      { s with timer := TimerState.armed (some 5000) } := by
  simp [drainLoop, h1, h2, h3, h4]

/-- Unfolding: otherwise the drain loop runs one iteration body and either
recurses or stops. -/
theorem drainLoop_succ_step (genv : GEnv) (elapsed : Nat → Nat)
    (fuel k : Nat) (s : DState)
    (h1 : ¬(s.queue = [])) (h2 : ¬(s.limit ≤ s.inUse))
    (h3 : ¬(k ≠ 0 ∧ 2000 < elapsed k)) :
    drainLoop genv elapsed (fuel + 1) k s =
      (if (drainBody genv s).2 = true
       then drainLoop genv elapsed fuel (k + 1) (drainBody genv s).1
       else (drainBody genv s).1) := by
  simp only [drainLoop]
  rw [if_neg h1, if_neg h2, if_neg h3]

/-- The drain loop never grows the pending set. -/
theorem drainLoop_queue_mono (genv : GEnv) (elapsed : Nat → Nat) :
    ∀ fuel k s, (drainLoop genv elapsed fuel k s).queue.length ≤
      s.queue.length := by
  intro fuel
  induction fuel with
  | zero => intro k s; rw [drainLoop_zero]
  | succ m ih =>
    intro k s
    by_cases h1 : s.queue = []
    · rw [drainLoop_succ_stop genv elapsed m k s (Or.inl h1)]
    · by_cases h2 : s.limit ≤ s.inUse
      · rw [drainLoop_succ_stop genv elapsed m k s (Or.inr h2)]
      · by_cases h3 : k ≠ 0 ∧ 2000 < elapsed k
        · rw [drainLoop_succ_yield genv elapsed m k s h1 h2 h3.1 h3.2]
        · rw [drainLoop_succ_step genv elapsed m k s h1 h2 h3]
          obtain ⟨l, rest, hcons⟩ : ∃ l rest, s.queue = l :: rest := by
            cases hc : s.queue with
            | nil => exact absurd hc h1
            | cons a b => exact ⟨a, b, rfl⟩
          rcases drainBody_step genv s l rest hcons with ⟨hc2, hq2⟩ |
            ⟨hc2, hq2, _⟩
          · rw [if_pos hc2]
            calc (drainLoop genv elapsed m (k + 1)
                  (drainBody genv s).1).queue.length
                ≤ (drainBody genv s).1.queue.length := ih _ _
              _ = rest.length := by rw [hq2]
              _ ≤ s.queue.length := by rw [hcons]; simp
          · rw [if_neg (by simp [hc2])]
            rw [hq2]

/-- The drain loop preserves the token-accounting invariant. -/
theorem drainLoop_preserves (genv : GEnv) (elapsed : Nat → Nat)
    (hg : ∀ q, (genv.noteConfig q).tokenValid = q.tokenValid) :
    ∀ fuel k s, s.inUse = attachedCount s.seqs → s.inUse ≤ s.limit →
      (drainLoop genv elapsed fuel k s).inUse =
        attachedCount (drainLoop genv elapsed fuel k s).seqs ∧
      (drainLoop genv elapsed fuel k s).inUse ≤
        (drainLoop genv elapsed fuel k s).limit ∧
      (drainLoop genv elapsed fuel k s).limit = s.limit := by
  intro fuel
  induction fuel with
  | zero =>
    intro k s hI hle
    rw [drainLoop_zero]
    exact ⟨hI, hle, rfl⟩
  | succ m ih =>
    intro k s hI hle
    by_cases h1 : s.queue = []
    · rw [drainLoop_succ_stop genv elapsed m k s (Or.inl h1)]
      exact ⟨hI, hle, rfl⟩
    · by_cases h2 : s.limit ≤ s.inUse
      · rw [drainLoop_succ_stop genv elapsed m k s (Or.inr h2)]
        exact ⟨hI, hle, rfl⟩
      · by_cases h3 : k ≠ 0 ∧ 2000 < elapsed k
        · rw [drainLoop_succ_yield genv elapsed m k s h1 h2 h3.1 h3.2]
          exact ⟨hI, hle, rfl⟩
        · rw [drainLoop_succ_step genv elapsed m k s h1 h2 h3]
          have hlt : s.inUse < s.limit := Nat.lt_of_not_le h2
          have hb := drainBody_preserves genv hg s hI hlt
          by_cases hcont : (drainBody genv s).2 = true
          · rw [if_pos hcont]
            have hle2 : (drainBody genv s).1.inUse ≤
                (drainBody genv s).1.limit := by
              rw [hb.2.2]; exact hb.2.1
            have hr := ih (k + 1) (drainBody genv s).1 hb.1 hle2
            exact ⟨hr.1, hr.2.1, by rw [hr.2.2, hb.2.2]⟩
          · rw [if_neg hcont]
            exact ⟨hb.1, by rw [hb.2.2]; exact hb.2.1, hb.2.2⟩

/-- The completion intake preserves the token-accounting invariant and
never increases the number of in-use tokens. -/
theorem notifyIntake_preserves (l : Nat) (s : DState)
    (hI : s.inUse = attachedCount s.seqs) :
    (notifyIntake l s).inUse = attachedCount (notifyIntake l s).seqs ∧
    (notifyIntake l s).inUse ≤ s.inUse ∧
    (notifyIntake l s).limit = s.limit := by
  by_cases hm : isMetaDataLog l
  · have hbody : notifyIntake l s = s := by simp [notifyIntake, hm]
    rw [hbody]
    exact ⟨hI, Nat.le_refl _, rfl⟩
  · cases hlk : lookupSeq l s.seqs with
    | none =>
      have hbody : notifyIntake l s = s := by simp [notifyIntake, hm, hlk]
      rw [hbody]
      exact ⟨hI, Nat.le_refl _, rfl⟩
    | some q =>
      cases htok : q.tokenValid with
      | false =>
        by_cases hins : (setInsert l s.queue).2
        · have hbody : notifyIntake l s =
              { s with
                  queue := (setInsert l s.queue).1
                  statScheduled := s.statScheduled + 1 } := by
            simp [notifyIntake, hm, hlk, htok, hins]
          rw [hbody]
          exact ⟨hI, Nat.le_refl _, rfl⟩
        · have hbody : notifyIntake l s =
              { s with queue := (setInsert l s.queue).1 } := by
            simp [notifyIntake, hm, hlk, htok, hins]
          rw [hbody]
          exact ⟨hI, Nat.le_refl _, rfl⟩
      | true =>
        have hpos := attachedCount_pos l q s.seqs hlk htok
        have hupd := attachedCount_update_lookup l q
          { q with tokenValid := false } s.seqs hlk
        rw [htok] at hupd
        simp at hupd
        by_cases hins : (setInsert l s.queue).2
        · have hbody : notifyIntake l s =
              { s with
                  seqs := updateSeq l { q with tokenValid := false } s.seqs
                  inUse := s.inUse - 1
                  queue := (setInsert l s.queue).1 } := by
            simp [notifyIntake, hm, hlk, htok, hins]
          rw [hbody]
          refine ⟨?_, Nat.sub_le _ _, rfl⟩
          show s.inUse - 1 =
            attachedCount (updateSeq l { q with tokenValid := false } s.seqs)
          omega
        · have hbody : notifyIntake l s =
              { s with
                  seqs := updateSeq l { q with tokenValid := false } s.seqs
                  inUse := s.inUse - 1
                  queue := (setInsert l s.queue).1
                  statCompleted := s.statCompleted + 1 } := by
            simp [notifyIntake, hm, hlk, htok, hins]
          rw [hbody]
          refine ⟨?_, Nat.sub_le _ _, rfl⟩
          show s.inUse - 1 =
            attachedCount (updateSeq l { q with tokenValid := false } s.seqs)
          omega

/-- C4: the drain loop's cooperative yield.  First part: whenever the
pending set is non-empty and the budget has a free credit, at least one
pending log is processed regardless of the clock — the time check is never
applied before the first iteration — so the call either erases some id or
ends in a defer that arms the default retry timer.  Second part: at any
later iteration (`k ≠ 0`), if the elapsed wall-clock time exceeds 2000
microseconds, the loop arms the retry timer for 5000 microseconds and exits
immediately, changing nothing else. -/
theorem C4_two_ms_yield :
    (∀ (genv : GEnv) (elapsed : Nat → Nat) (L : Nat) (s : DState),
      s.queue ≠ [] → s.inUse < L →
      (maybeProcessQueue genv elapsed L s).queue.length < s.queue.length ∨
      (maybeProcessQueue genv elapsed L s).timer =
        TimerState.armed Option.none) ∧
    (∀ (genv : GEnv) (elapsed : Nat → Nat) (fuel k : Nat) (s : DState),
      fuel ≠ 0 → s.queue ≠ [] → s.inUse < s.limit → k ≠ 0 →
      2000 < elapsed k →
      drainLoop genv elapsed fuel k s =
        { s with timer := TimerState.armed (some 5000) }) := by
  constructor
  · intro genv elapsed L s hq hlt
    obtain ⟨l, rest, hcons⟩ : ∃ l rest, s.queue = l :: rest := by
      cases hc : s.queue with
      | nil => exact absurd hc hq
      | cons a b => exact ⟨a, b, rfl⟩
    have hlen : s.queue.length = rest.length + 1 := by rw [hcons]; rfl
    have hq0 : (({ s with timer := TimerState.off, limit := L } : DState)).queue
        = l :: rest := hcons
    have h1 : ¬(({ s with timer := TimerState.off, limit := L } : DState)).queue
        = [] := by rw [hq0]; simp
    have h2 : ¬(({ s with timer := TimerState.off, limit := L } : DState)).limit
        ≤ (({ s with timer := TimerState.off, limit := L } : DState)).inUse :=
      Nat.not_le.mpr hlt
    have h3 : ¬((0 : Nat) ≠ 0 ∧ 2000 < elapsed 0) := by simp
    simp only [maybeProcessQueue, hlen]
    rw [drainLoop_succ_step genv elapsed rest.length 0
      { s with timer := TimerState.off, limit := L } h1 h2 h3]
    rcases drainBody_step genv { s with timer := TimerState.off, limit := L }
        l rest hq0 with ⟨hc2, hq2⟩ | ⟨hc2, hq2, ht2⟩
    · rw [if_pos hc2]
      left
      calc (drainLoop genv elapsed rest.length 1
            (drainBody genv
              { s with timer := TimerState.off, limit := L }).1).queue.length
          ≤ (drainBody genv
              { s with timer := TimerState.off, limit := L }).1.queue.length :=
            drainLoop_queue_mono genv elapsed rest.length 1 _
        _ = rest.length := by rw [hq2]
        _ < rest.length + 1 := Nat.lt_succ_self _
    · rw [if_neg (by simp [hc2])]
      right
      exact ht2
  · intro genv elapsed fuel k s hf hq hlt hk he
    cases fuel with
    | zero => exact absurd rfl hf
    | succ m =>
      exact drainLoop_succ_yield genv elapsed m k s hq (Nat.not_le.mpr hlt)
        hk he

/-- Witness for C4: with log 7 pending, a free credit and a clock already
past 2 ms, the first drain iteration still runs; and at iteration 1 the
loop yields into a 5 ms timer without touching the state. -/
theorem C4_two_ms_yield_witness :
    ((maybeProcessQueue (mkGEnv envParams) (fun _ => 9999) 1
        (stOf seqFix)).queue.length < (stOf seqFix).queue.length ∨
      (maybeProcessQueue (mkGEnv envParams) (fun _ => 9999) 1
        (stOf seqFix)).timer = TimerState.armed Option.none) ∧
    drainLoop (mkGEnv envParams) (fun _ => 9999) 1 1 (stOf seqFix) =
      { (stOf seqFix) with timer := TimerState.armed (some 5000) } :=
  ⟨C4_two_ms_yield.1 (mkGEnv envParams) (fun _ => 9999) 1 (stOf seqFix)
      (by decide) (by decide),
    C4_two_ms_yield.2 (mkGEnv envParams) (fun _ => 9999) 1 1 (stOf seqFix)
      (by decide) (by decide) (by decide) (by decide) (by decide)⟩

/-- C8: token conservation.  If `noteConfigurationChanged` leaves the token
slot alone and the engine is at a quiescent moment satisfying
in-use = attached with at most `L` tokens out, then after a full drain
(`maybeProcessQueue`) and after a completion intake followed by its drain
(`notifyCompletion`) the state is again quiescent with
free credits (`L - inUse`) plus attached tokens equal to the configured
limit `L`: every token acquired by the loop was either moved into exactly
one sequencer slot or released within its iteration, and the intake
released an attached token exactly once. -/
theorem C8_token_conservation (genv : GEnv) (elapsed : Nat → Nat) (L : Nat)
    (l : Nat) (st : Status) (s : DState)
    (hg : ∀ q, (genv.noteConfig q).tokenValid = q.tokenValid)
    (hI : s.inUse = attachedCount s.seqs)
    (hle : s.inUse ≤ L) :
    ((maybeProcessQueue genv elapsed L s).inUse =
        attachedCount (maybeProcessQueue genv elapsed L s).seqs ∧
      (L - (maybeProcessQueue genv elapsed L s).inUse) +
        attachedCount (maybeProcessQueue genv elapsed L s).seqs = L) ∧
    ((notifyCompletion genv elapsed L l st s).inUse =
        attachedCount (notifyCompletion genv elapsed L l st s).seqs ∧
      (L - (notifyCompletion genv elapsed L l st s).inUse) +
        attachedCount (notifyCompletion genv elapsed L l st s).seqs = L) := by
  have hmp : ∀ t : DState, t.inUse = attachedCount t.seqs → t.inUse ≤ L →
      (maybeProcessQueue genv elapsed L t).inUse =
        attachedCount (maybeProcessQueue genv elapsed L t).seqs ∧
      (maybeProcessQueue genv elapsed L t).inUse ≤ L := by
    intro t hti htle
    have h0 := drainLoop_preserves genv elapsed hg t.queue.length 0
      { t with timer := TimerState.off, limit := L } hti htle
    have hlim : (drainLoop genv elapsed t.queue.length 0
        { t with timer := TimerState.off, limit := L }).limit = L := h0.2.2
    simp only [maybeProcessQueue]
    exact ⟨h0.1, le_of_le_of_eq h0.2.1 hlim⟩
  constructor
  · have h := hmp s hI hle
    exact ⟨h.1, by omega⟩
  · have hni := notifyIntake_preserves l s hI
    have h := hmp (notifyIntake l s) hni.1 (le_trans hni.2.1 hle)
    simp only [notifyCompletion]
    exact ⟨h.1, by omega⟩

/-- Witness for C8: limit 1, one pending log whose processing moves the
token into the sequencer (`envParams` issues an epoch-store write), and a
completion notification; conservation holds after both operations. -/
theorem C8_token_conservation_witness :
    (1 - (maybeProcessQueue (mkGEnv envParams) (fun _ => 0) 1
        (stOf seqFix)).inUse) +
      attachedCount (maybeProcessQueue (mkGEnv envParams) (fun _ => 0) 1
        (stOf seqFix)).seqs = 1 ∧
    (1 - (notifyCompletion (mkGEnv envParams) (fun _ => 0) 1 7 Status.OK
        (stOf seqFix)).inUse) +
      attachedCount (notifyCompletion (mkGEnv envParams) (fun _ => 0) 1 7
        Status.OK (stOf seqFix)).seqs = 1 :=
  ⟨(C8_token_conservation (mkGEnv envParams) (fun _ => 0) 1 7 Status.OK
      (stOf seqFix) (fun _ => rfl) (by decide) (by decide)).1.2,
    (C8_token_conservation (mkGEnv envParams) (fun _ => 0) 1 7 Status.OK
      (stOf seqFix) (fun _ => rfl) (by decide) (by decide)).2.2⟩

end LogDevice
